import Mathlib

/-!
Verification development for the HYBRAG vector-ingestion-and-retrieval core.

The definitions below are a shallow embedding of the Python source under
`hybrag/backend/images/`:

* `embeddings/siglip.py` — the response-shape extractor
  `_extract_embedding_from_data`, the realtime response handling in
  `SiglipService._invoke`, and the async polling loop of `_invoke`;
* `vector/s3_vector_store.py` — `_cosine`, `S3VectorStore.upsert`,
  `S3VectorStore.delete_ids` and `S3VectorStore.search` (both the
  s3vectors "vector mode" path and the legacy JSON-scan fallback);
* `vector/pinecone_store.py` — the OpenSearch-backed `VectorStore`
  (`upsert`, `delete_ids`, `search` and its filter construction);
* `views.py` — `rerank_with_metadata_boost`.

Modelling conventions:
* Python floats are modelled as `ℚ` (every float value is a rational and the
  arithmetic here is idealized as exact), except for `_cosine` and the legacy
  scan that calls it, where `math.sqrt` forces `ℝ`.
* JSON-decoded Python values are modelled by `PyVal`; a Python string that the
  source may feed to `json.loads` is modelled together with the outcome of that
  parse (`PyVal.str parsed`, where `parsed = none` means `json.loads` raises).
  Strings in these positions are modelled as nonempty (truthy).
* `list.sort(key=…, reverse=True)` (a stable descending sort) is modelled by
  `List.insertionSort` with the reflexive relation `key y ≤ key x`, which is
  stable and therefore produces the same list as Python's stable sort.
* Calls handed to an external transport (boto3 / opensearch-py) are recorded
  explicitly as `TransportCall` values; responses of external services are
  universally-quantified oracle inputs.
-/

/-! ## Python/JSON value model (embeds the data handled by siglip.py) -/

/-- A JSON-decoded Python value as handled by `_extract_embedding_from_data`.
`str parsed` carries the outcome `json.loads` would give on that string
(`none` = the parse raises). `bool` is kept separate because Python `bool`
is a subclass of `int`, so `isinstance(x, (int, float))` accepts it. -/
inductive PyVal where
  | num (x : ℚ)
  | bool (b : Bool)
  | str (parsed : Option PyVal)
  | list (xs : List PyVal)
  | dict (fields : List (String × PyVal))
  | none

/-- Python `isinstance(x, (int, float))` — true for numbers and booleans. -/
def isNum : PyVal → Bool
  | .num _ => true
  | .bool _ => true
  | _ => false

/-- Python `float(x)` on a value accepted by `isNum`. -/
def toFloat : PyVal → ℚ
  | .num x => x
  | .bool b => if b then 1 else 0
  | _ => 0

/-- The check `isinstance(vec, list) and all(isinstance(x, (int, float)) for x in vec)`
followed by `[float(x) for x in vec]` from `_extract_embedding_from_data`. -/
def asNumVec : PyVal → Option (List ℚ)
  | .list xs => if xs.all isNum then some (xs.map toFloat) else Option.none
  | _ => Option.none

/-- Python truthiness of a `PyVal` (strings are modelled as nonempty, hence truthy). -/
def pyTruthy : PyVal → Bool
  | .num x => x != 0
  | .bool b => b
  | .str _ => true
  | .list xs => !xs.isEmpty
  | .dict fs => !fs.isEmpty
  | .none => false

/-- The expression `data.get('body') or data.get('Body')` from siglip.py. -/
def bodyField (fs : List (String × PyVal)) : Option PyVal :=
  match List.lookup "body" fs with
  | some v => if pyTruthy v then some v else List.lookup "Body" fs
  | Option.none => List.lookup "Body" fs

/-- Values found by `List.lookup` are structurally smaller than the association
list, measured by `sizeOf`. Used for the termination of `extractEmbedding`. -/
theorem sizeOf_lookup {fs : List (String × PyVal)} {k : String} {v : PyVal}
    (h : List.lookup k fs = some v) : sizeOf v < sizeOf fs := by
  induction fs with
  | nil => simp [List.lookup] at h
  | cons p rest ih =>
    rw [List.lookup] at h
    split at h
    · cases h
      cases p
      simp
      omega
    · have := ih h
      cases p
      simp
      omega

/-- A value produced by `bodyField` is structurally smaller than the field list. -/
theorem sizeOf_bodyField {fs : List (String × PyVal)} {v : PyVal}
    (h : bodyField fs = some v) : sizeOf v < sizeOf fs := by
  unfold bodyField at h
  split at h
  · split at h
    · cases h; exact sizeOf_lookup (by assumption)
    · exact sizeOf_lookup h
  · exact sizeOf_lookup h

mutual

/-- Embeds `_extract_embedding_from_data` (siglip.py lines 22–64).
Case 1: a dict — try the `embedding` key, else recursively parse a
string-typed `body`/`Body`. Case 2: a nonempty all-numeric list is itself the
vector. Case 3: any other list — scan items via `extractFromItems`.
Anything else yields `None`. -/
def extractEmbedding : PyVal → Option (List ℚ)
  | .dict fs =>
    match (List.lookup "embedding" fs).bind asNumVec with
    | some v => some v
    | Option.none =>
      match h : bodyField fs with
      | some (.str (some inner)) => extractEmbedding inner
      | _ => Option.none
  | .list xs =>
    if !xs.isEmpty && xs.all isNum then some (xs.map toFloat)
    else extractFromItems xs
  | _ => Option.none
termination_by v => sizeOf v
decreasing_by
  all_goals simp_wf
  all_goals try have hsz := sizeOf_bodyField h
  all_goals simp_all
  all_goals omega

/-- Embeds the item loop of `_extract_embedding_from_data` case 3: the first
dict item with a valid `embedding` wins; a dict item without one has its
string-typed `body`/`Body` parsed and retried; a string item is parsed and
retried; failures continue with the remaining items. -/
def extractFromItems : List PyVal → Option (List ℚ)
  | [] => Option.none
  | item :: rest =>
    match item with
    | .dict fs =>
      match (List.lookup "embedding" fs).bind asNumVec with
      | some v => some v
      | Option.none =>
        match h : bodyField fs with
        | some (.str (some inner)) =>
          match extractEmbedding inner with
          | some v => some v
          | Option.none => extractFromItems rest
        | _ => extractFromItems rest
    | .str (some inner) =>
      match extractEmbedding inner with
      | some v => some v
      | Option.none => extractFromItems rest
    | _ => extractFromItems rest
termination_by l => sizeOf l
decreasing_by
  all_goals simp_wf
  all_goals try have hsz := sizeOf_bodyField h
  all_goals try simp_all
  all_goals omega

end

/-- Outcome of the realtime `_invoke` response handling (siglip.py lines 160–164):
either a Python value is returned, or `RuntimeError('Bad response …')` is
raised, or `body.get` raises `AttributeError` because the parsed body is not
a dict. -/
inductive RtOutcome where
  | ok (v : PyVal)
  | malformedError
  | attrError

/-- Embeds the realtime response handling of `SiglipService._invoke`:
`vec = _extract_embedding_from_data(body) or body.get('embedding')`
followed by `if not isinstance(vec, list): raise RuntimeError(...)`.
A successful nonempty extraction is truthy and returned as a list of floats;
a `None` or empty extraction falls back to `body.get('embedding')`, which
raises `AttributeError` if `body` is not a dict, and the fallback value is
returned only when it is a list. -/
def handleRealtimeBody (body : PyVal) : RtOutcome :=
  let fallback : RtOutcome :=
    match body with
    | .dict fs =>
      match List.lookup "embedding" fs with
      | some (.list xs) => .ok (.list xs)
      | _ => .malformedError
    | _ => .attrError
  match extractEmbedding body with
  | some l => if l.isEmpty then fallback else .ok (.list (l.map PyVal.num))
  | Option.none => fallback

/-! ## Async polling loop (siglip.py lines 124–149) -/

/-- Outcome of one poll of the async output location: the output object does
not exist yet (`NoSuchKey`), some other exception was raised while fetching or
JSON-decoding it (`failure`, carrying `str(e)`), or a JSON payload was read. -/
inductive PollOutcome where
  | noSuchKey
  | failure (msg : String)
  | payload (d : PyVal)

/-- The `type(data).__name__` used in the bad-shape message. -/
def pyTypeName : PyVal → String
  | .num _ => "float"
  | .bool _ => "bool"
  | .str _ => "str"
  | .list _ => "list"
  | .dict _ => "dict"
  | .none => "NoneType"

/-- Embeds the polling loop of `SiglipService._invoke` (async image path).
Time is discrete (seconds); `poll t` is what reading the output object at time
`t` yields. A `NoSuchKey` is treated as not-ready (`pass`); any other failure
is recorded in `last_err`; a payload whose extraction succeeds returns the
vector immediately; a payload with no extractable vector records a bad-shape
error. Each retry happens after `time.sleep(2)`. When `time >= deadline` the
loop exits and raises `RuntimeError(last_err or 'Timed out waiting for async
output')`. -/
def pollLoop (poll : ℕ → PollOutcome) (deadline t : ℕ) (lastErr : Option String) :
    Except String (List ℚ) :=
  if t < deadline then
    match poll t with
    | .noSuchKey => pollLoop poll deadline (t + 2) lastErr
    | .failure m => pollLoop poll deadline (t + 2) (some m)
    | .payload d =>
      match extractEmbedding d with
      | some v => .ok v
      | Option.none =>
        pollLoop poll deadline (t + 2) (some ("Bad async response shape: " ++ pyTypeName d))
  else .error (lastErr.getD "Timed out waiting for async output")
termination_by deadline - t
decreasing_by all_goals omega

/-- Default of `getattr(settings, 'SAGEMAKER_ASYNC_TIMEOUT', 150)`. -/
def asyncTimeoutDefault : ℕ := 150

/-- The async invocation tail of `_invoke`: `deadline = time.time() + timeout`
then the polling loop starting with `last_err = None`. -/
def asyncInvoke (poll : ℕ → PollOutcome) (timeout t0 : ℕ) : Except String (List ℚ) :=
  pollLoop poll (t0 + timeout) t0 Option.none

/-! ## Cosine similarity (s3_vector_store.py lines 11–25) -/

/-- The accumulation loop of `_cosine`: one pass over the paired elements
building `(dot, na, nb)` from `(0.0, 0.0, 0.0)`. -/
def cosineAcc (a b : List ℝ) : ℝ × ℝ × ℝ :=
  (a.zip b).foldl (fun s p => (s.1 + p.1 * p.2, s.2.1 + p.1 * p.1, s.2.2 + p.2 * p.2))
    (0, 0, 0)

/-- Embeds `_cosine(a, b)`: return `-1.0` when either list is empty or the
lengths differ; accumulate `dot`, `na`, `nb`; return `-1.0` when either norm
accumulator is zero; otherwise `dot / (sqrt(na) * sqrt(nb))`. -/
noncomputable def cosine (a b : List ℝ) : ℝ :=
  if a = [] ∨ b = [] ∨ a.length ≠ b.length then -1
  else
    let s := cosineAcc a b
    if s.2.1 = 0 ∨ s.2.2 = 0 then -1
    else s.1 / (Real.sqrt s.2.1 * Real.sqrt s.2.2)

/-- Mathematical dot product of two vectors (specification-side definition,
stated independently of the accumulation loop). -/
def dotP (a b : List ℝ) : ℝ := ((a.zip b).map fun p => p.1 * p.2).sum

/-- Mathematical squared Euclidean norm (specification-side definition). -/
def normSq (a : List ℝ) : ℝ := (a.map fun x => x * x).sum

/-- Mathematical Euclidean norm (specification-side definition). -/
noncomputable def norm2 (a : List ℝ) : ℝ := Real.sqrt (normSq a)

/-! ## Vector store data model -/

/-- Metadata payload attached to a vector record. The fields the core reads
(`building`, `shot_ymd`) are explicit; all other keys of the open mapping
(`shot_date`, `notes`, `s3_key`, `id`, …) are carried opaquely in `extra`. -/
structure Meta where
  building : Option String
  shot_ymd : Option ℤ
  extra : List (String × String)
deriving DecidableEq

/-- A search result row as the stores build it: `{"id": …, "score": …}`
merged with the record's metadata. `score` is absent when the backend
returned no numeric distance. -/
structure SearchRow where
  id : Option String
  score : Option ℚ
  building : Option String
  shot_ymd : Option ℤ
  extra : List (String × String)
deriving DecidableEq

/-- A request handed to the external transport client (boto3 s3vectors /
boto3 s3 / opensearch-py). Recording these makes "the transport receives zero
calls" provable. -/
inductive TransportCall where
  | putVectors (id : String) (vector : List ℚ) (metadata : Meta)
  | osIndex (id : String) (vector : List ℚ) (metadata : Meta)
  | queryVectors (query : List ℚ)
  | osSearchReq (query : List ℚ)
  | deleteVectors (keys : List String)
  | osDelete (id : String)

/-- Errors raised by the store layer. -/
inductive StoreErr where
  | dimMismatch (got expected : ℕ)
  | notFound
deriving DecidableEq

/-- Embeds `S3VectorStore.upsert` (s3_vector_store.py lines 74–88, strict
vector mode): the guard `if len(vector) != self.dim: raise ValueError(...)`
runs before anything is sent, then one `put_vectors` call is made. The result
is paired with the list of transport calls issued. -/
def s3Upsert (dim : ℕ) (pointId : String) (vector : List ℚ) (payload : Meta) :
    Except StoreErr Unit × List TransportCall :=
  if vector.length ≠ dim then (.error (.dimMismatch vector.length dim), [])
  else (.ok (), [.putVectors pointId vector payload])

/-- Embeds the OpenSearch-backed `VectorStore.upsert` (pinecone_store.py lines
84–87): `doc = {"id": point_id, **payload, "embedding": vector}` followed
directly by `self.client.index(...)`. The source performs no dimension
check, so the document is always handed to the transport. `dim` is the
store's configured dimension (`self.dim`), unused by the source here. -/
def osUpsert (dim : ℕ) (pointId : String) (vector : List ℚ) (payload : Meta) :
    Except StoreErr Unit × List TransportCall :=
  (.ok (), [.osIndex pointId vector payload])

/-! ## Date parsing and filters -/

/-- Python `int(s)` restricted to the digit strings produced by stripping
dashes from a date (`int` raises on anything else; the callers catch that). -/
def pyIntOfDigits (l : List Char) : Option ℤ :=
  if l ≠ [] ∧ l.all Char.isDigit then
    some (Int.ofNat (l.foldl (fun n c => n * 10 + (c.toNat - Char.toNat '0')) 0))
  else Option.none

/-- Embeds `int(date_str.replace('-', ''))`: remove every dash, convert. -/
def ymdOfDateStr (s : String) : Option ℤ :=
  pyIntOfDigits (s.data.filter (fun c => c ≠ '-'))

/-- Python truthiness of an optional string parameter (`if date_from:` — both
`None` and the empty string are falsy). -/
def strTruthy : Option String → Bool
  | some s => s ≠ ""
  | Option.none => false

/-- Embeds the client-side date filter of `S3VectorStore.search` (lines
326–341 vector mode, 410–423 legacy): a record is skipped when a supplied
`date_from` converts and `int(r.get('shot_ymd') or 0)` is below it, or a
supplied `date_to` converts and the value is above it; a conversion failure
leaves the record in (`except Exception: pass`). -/
def passesDateFilter (dateFrom dateTo : Option String) (ymd : Option ℤ) : Bool :=
  (if strTruthy dateFrom then
    match ymdOfDateStr (dateFrom.getD "") with
    | some lo => decide (ymd.getD 0 ≥ lo)
    | Option.none => true
  else true)
  && (if strTruthy dateTo then
    match ymdOfDateStr (dateTo.getD "") with
    | some hi => decide (ymd.getD 0 ≤ hi)
    | Option.none => true
  else true)

/-! ## S3 vector-mode search (s3_vector_store.py lines 296–343) -/

/-- One element of the `query_vectors` response (`resp['vectors']`): an
optional key, optional metadata dict, optional numeric distance. -/
structure QVecEntry where
  key : Option String
  metadata : Option Meta
  distance : Option ℚ

/-- Row construction from one response entry:
`row = {"id": str(key)}`, `row["score"] = 1.0 - float(dist)` when the
distance is numeric, then `row.update(meta)` when the metadata is a dict. -/
def s3RowOfEntry (e : QVecEntry) : SearchRow :=
  { id := e.key
    score := e.distance.map (fun d => 1 - d)
    building := (e.metadata.map Meta.building).getD Option.none
    shot_ymd := (e.metadata.map Meta.shot_ymd).getD Option.none
    extra := (e.metadata.map Meta.extra).getD [] }

/-- The sort key `float(x.get('score') or 0.0)` (a missing or zero score
sorts as `0.0`). -/
def scoreKey (r : SearchRow) : ℚ := r.score.getD 0

/-- Python `list.sort(key=…, reverse=True)`: a stable descending sort,
modelled by stable insertion sort with the relation `key y ≤ key x`. -/
def sortByKeyDesc {α K : Type} [LinearOrder K] (key : α → K) (l : List α) : List α :=
  List.insertionSort (fun x y => key y ≤ key x) l

/-- Embeds the vector-mode result pipeline of `S3VectorStore.search`: build a
row per response entry, apply the client-side date filter, sort descending by
score and truncate to `max(1, top_k)`. The response list is the oracle input
standing for what the s3vectors service returned. -/
def s3VectorModeResults (resp : List QVecEntry) (dateFrom dateTo : Option String)
    (topK : ℤ) : List SearchRow :=
  (sortByKeyDesc scoreKey
    ((resp.map s3RowOfEntry).filter (fun r => passesDateFilter dateFrom dateTo r.shot_ymd))).take
    (max 1 topK).toNat

/-- Embeds `S3VectorStore.search` in strict vector mode with its leading guard
(line 294): `if len(query_vector) != self.dim: raise ValueError(...)` before
any transport call; otherwise one `query_vectors` call is made and the
result pipeline runs on the response. -/
def s3Search (dim : ℕ) (queryVector : List ℚ) (resp : List QVecEntry)
    (dateFrom dateTo : Option String) (topK : ℤ) :
    Except StoreErr (List SearchRow) × List TransportCall :=
  if queryVector.length ≠ dim then (.error (.dimMismatch queryVector.length dim), [])
  else (.ok (s3VectorModeResults resp dateFrom dateTo topK), [.queryVectors queryVector])

/-! ## S3 legacy JSON-scan search (s3_vector_store.py lines 395–434) -/

/-- A legacy JSON document stored as an S3 object:
`{"id": …, **payload, "embedding": …}`. -/
structure LegacyDoc where
  id : Option String
  building : Option String
  shot_ymd : Option ℤ
  embedding : Option (List ℝ)
  extra : List (String × String)

/-- A legacy search row: `{"id": …, "score": …, **doc minus embedding}`.
The score is always set on this path (it is the computed cosine). -/
structure LegacyRow where
  id : Option String
  score : ℝ
  building : Option String
  shot_ymd : Option ℤ
  extra : List (String × String)

/-- The per-document body of the legacy scan loop: skip when a truthy
`building` filter does not match `doc.get('building')`; apply the date
filters; skip unless the embedding is a list of the configured dimension;
otherwise score the document with `_cosine`. -/
noncomputable def legacyRowOf (dim : ℕ) (queryVector : List ℝ) (building : Option String)
    (dateFrom dateTo : Option String) (doc : LegacyDoc) : Option LegacyRow :=
  if strTruthy building ∧ doc.building ≠ building then Option.none
  else if ¬ passesDateFilter dateFrom dateTo doc.shot_ymd then Option.none
  else
    match doc.embedding with
    | some emb =>
      if emb.length = dim then
        some { id := doc.id, score := cosine queryVector emb, building := doc.building,
               shot_ymd := doc.shot_ymd, extra := doc.extra }
      else Option.none
    | Option.none => Option.none

/-- Embeds the legacy fallback of `S3VectorStore.search`: scan every stored
document, filter and score client-side, sort descending by
`float(x.get('score') or 0.0)` and truncate to `max(1, top_k)`. -/
noncomputable def s3LegacyResults (dim : ℕ) (queryVector : List ℝ) (docs : List LegacyDoc)
    (building dateFrom dateTo : Option String) (topK : ℤ) : List LegacyRow :=
  (sortByKeyDesc LegacyRow.score
    (docs.filterMap (legacyRowOf dim queryVector building dateFrom dateTo))).take
    (max 1 topK).toNat

/-! ## OpenSearch-backed search (pinecone_store.py lines 110–153) -/

/-- Embeds the date clause construction of `VectorStore.search` (lines
123–136): when a truthy `date_from`/`date_to` is supplied, each bound that
converts with `int(d.replace('-', ''))` becomes `gte`/`lte` of a `range`
clause on `shot_ymd`; the clause is appended only when nonempty. -/
def osRangeClause (dateFrom dateTo : Option String) : Option (Option ℤ × Option ℤ) :=
  if strTruthy dateFrom ∨ strTruthy dateTo then
    let lo := if strTruthy dateFrom then ymdOfDateStr (dateFrom.getD "") else Option.none
    let hi := if strTruthy dateTo then ymdOfDateStr (dateTo.getD "") else Option.none
    if lo.isSome ∨ hi.isSome then some (lo, hi) else Option.none
  else Option.none

/-- Modelled from the documented semantics of the external OpenSearch engine:
a `range` clause with `gte`/`lte` bounds matches a `shot_ymd` value iff the
value lies in the inclusive interval. -/
def rangeClauseMatches (clause : Option (Option ℤ × Option ℤ)) (ymd : ℤ) : Bool :=
  match clause with
  | some (lo, hi) =>
    (match lo with | some a => decide (a ≤ ymd) | Option.none => true)
    && (match hi with | some b => decide (ymd ≤ b) | Option.none => true)
  | Option.none => true

/-- The `_source` of an OpenSearch hit: the stored document
`{"id": …, **metadata, "embedding": …}` as indexed by `upsert`. -/
structure OSSource where
  id : Option String
  building : Option String
  shot_ymd : Option ℤ
  extra : List (String × String)

/-- One element of `res['hits']['hits']`: the document `_id`, the engine
`_score`, and the `_source`. -/
structure OSHit where
  docId : Option String
  score : Option ℚ
  src : OSSource

/-- Row construction of `VectorStore.search` (lines 148–152):
`row = {"id": h.get('_id'), "score": float(h.get('_score') or 0.0)}` then
`row.update(h.get('_source') or {})` — a source `id` overwrites the hit id. -/
def osRowOfHit (h : OSHit) : SearchRow :=
  { id := match h.src.id with | some i => some i | Option.none => h.docId
    score := some (h.score.getD 0)
    building := h.src.building
    shot_ymd := h.src.shot_ymd
    extra := h.src.extra }

/-- Embeds the result assembly of `VectorStore.search`: the hit list returned
by the engine (the oracle input) is mapped to rows in order, with no
client-side re-sorting or truncation. -/
def osSearchResults (hits : List OSHit) : List SearchRow :=
  hits.map osRowOfHit

/-- Embeds the transport behavior of `VectorStore.search`: the query is sent
to `self.client.search` with no dimension guard anywhere in the method. -/
def osSearchInvoke (dim : ℕ) (queryVector : List ℚ) (hits : List OSHit) :
    Except StoreErr (List SearchRow) × List TransportCall :=
  (.ok (osSearchResults hits), [.osSearchReq queryVector])

/-! ## Re-ranking (views.py lines 84–94) -/

/-- The per-result boosted score of `rerank_with_metadata_boost`:
`score = r.get('score', 0.0)`, plus `0.02` when a truthy `building` filter
equals `r.get('building')`. -/
def adjScore (building : Option String) (r : SearchRow) : ℚ :=
  r.score.getD 0 +
    (if strTruthy building ∧ r.building = building then 2 / 100 else 0)

/-- Embeds `rerank_with_metadata_boost(results, building)`: return an empty
input unchanged; otherwise pair every result with its boosted score, sort the
pairs descending by first component (stable), and project the results back
out. The boosted score is used only as the sort key. -/
def rerank (results : List SearchRow) (building : Option String) : List SearchRow :=
  if results.isEmpty then results
  else (sortByKeyDesc Prod.fst (results.map (fun r => (adjScore building r, r)))).map Prod.snd

/-! ## Deletions (pinecone_store.py lines 100–105, s3_vector_store.py lines 178–207) -/

/-- Split a list into chunks of `n` (the `range(0, len(ids), n)` loops). -/
def chunksBy {α : Type} (n : ℕ) (l : List α) : List (List α) :=
  match l with
  | [] => []
  | x :: rest =>
    if n = 0 then []
    else (x :: rest).take n :: chunksBy n ((x :: rest).drop n)
termination_by l.length
decreasing_by
  simp_all
  omega

/-- The per-id loop of the OpenSearch `VectorStore.delete_ids`:
`for id in ids: self.client.delete(index=…, id=id)`. Modelled from the
documented behavior of the external opensearch-py client: `delete` on an
absent document raises `NotFoundError` (no `ignore=[404]` is passed), which
propagates and aborts the loop; earlier deletions remain applied. The store
state is the list of document ids present. -/
def osDeleteLoop (st : List String) (ids : List String) : Except StoreErr (List String) :=
  match ids with
  | [] => .ok st
  | i :: rest => if i ∈ st then osDeleteLoop (st.erase i) rest else .error .notFound

/-- Embeds `VectorStore.delete_ids` (pinecone_store.py lines 100–105):
empty input returns immediately, otherwise every id is deleted in turn. -/
def osDeleteIds (st : List String) (ids : List String) : Except StoreErr (List String) :=
  if ids.isEmpty then .ok st else osDeleteLoop st ids

/-- Embeds `S3VectorStore.delete_ids` in strict vector mode (lines 182–190):
chunk the ids by 500 and call `delete_vectors` per chunk. Modelled from the
documented semantics of the external S3 Vectors API: `DeleteVectors` removes
the listed keys that exist and silently ignores absent keys. The store state
is the list of vector keys present. -/
def s3vDeleteIds (st : List String) (ids : List String) : List String :=
  if ids.isEmpty then st
  else (chunksBy 500 ids).foldl (fun s c => s.filter (fun k => !c.contains k)) st

/-- Embeds `_key_for_id` (s3_vector_store.py lines 71–72). -/
def keyForId (pre idx pointId : String) : String :=
  pre ++ "/" ++ idx ++ "/" ++ pointId ++ ".json"

/-- Embeds the legacy object fallback of `S3VectorStore.delete_ids` (lines
204–207): build one object key per id and delete in chunks of 1000 via
`delete_objects`, which ignores absent keys (documented S3 semantics). The
store state is the list of object keys present. -/
def s3LegacyDeleteIds (pre idx : String) (st : List String) (ids : List String) : List String :=
  if ids.isEmpty then st
  else (chunksBy 1000 (ids.map (keyForId pre idx))).foldl
    (fun s c => s.filter (fun k => !c.contains k)) st

/-! ## Cosine lemmas and claims C4, C5 -/

theorem cosineAcc_go (l : List (ℝ × ℝ)) (d na nb : ℝ) :
    l.foldl (fun s p => (s.1 + p.1 * p.2, s.2.1 + p.1 * p.1, s.2.2 + p.2 * p.2)) (d, na, nb) =
      (d + (l.map fun p => p.1 * p.2).sum,
       na + (l.map fun p => p.1 * p.1).sum,
       nb + (l.map fun p => p.2 * p.2).sum) := by
  induction l generalizing d na nb with
  | nil => simp
  | cons p rest ih =>
    simp [List.foldl_cons, ih]
    refine ⟨by ring, by ring, by ring⟩


theorem zip_fst_sq (a b : List ℝ) (h : a.length = b.length) :
    ((a.zip b).map fun p => p.1 * p.1).sum = normSq a := by
  induction a generalizing b with
  | nil => simp [normSq]
  | cons x rest ih =>
    cases b with
    | nil => simp at h
    | cons y tb =>
      have h' : rest.length = tb.length := by simpa using h
      have := ih tb h'
      simp only [normSq, List.zip_cons_cons, List.map_cons, List.sum_cons] at this ⊢
      rw [this]

theorem zip_snd_sq (a b : List ℝ) (h : a.length = b.length) :
    ((a.zip b).map fun p => p.2 * p.2).sum = normSq b := by
  induction a generalizing b with
  | nil =>
    cases b with
    | nil => simp [normSq]
    | cons y tb => simp at h
  | cons x rest ih =>
    cases b with
    | nil => simp at h
    | cons y tb =>
      have h' : rest.length = tb.length := by simpa using h
      have := ih tb h'
      simp only [normSq, List.zip_cons_cons, List.map_cons, List.sum_cons] at this ⊢
      rw [this]

theorem cosineAcc_eq (a b : List ℝ) (h : a.length = b.length) :
    cosineAcc a b = (dotP a b, normSq a, normSq b) := by
  unfold cosineAcc dotP
  rw [show ((0 : ℝ), (0 : ℝ), (0 : ℝ)) = ((0 : ℝ), ((0 : ℝ), (0 : ℝ))) from rfl]
  rw [cosineAcc_go]
  simp [zip_fst_sq a b h, zip_snd_sq a b h]

theorem dotP_comm (a b : List ℝ) : dotP a b = dotP b a := by
  induction a generalizing b with
  | nil => cases b <;> simp [dotP]
  | cons x rest ih =>
    cases b with
    | nil => simp [dotP]
    | cons y tb =>
      have := ih tb
      simp only [dotP, List.zip_cons_cons, List.map_cons, List.sum_cons] at this ⊢
      rw [this, mul_comm]

theorem dotP_self (a : List ℝ) : dotP a a = normSq a := by
  induction a with
  | nil => simp [dotP, normSq]
  | cons x rest ih =>
    simp only [dotP, normSq, List.zip_cons_cons, List.map_cons, List.sum_cons] at ih ⊢
    rw [ih]

theorem normSq_nonneg (a : List ℝ) : 0 ≤ normSq a := by
  induction a with
  | nil => simp [normSq]
  | cons x rest ih =>
    simp only [normSq, List.map_cons, List.sum_cons] at ih ⊢
    have : 0 ≤ x * x := mul_self_nonneg x
    linarith

theorem normSq_pos_of_mem {a : List ℝ} {x : ℝ} (hx : x ∈ a) (hne : x ≠ 0) :
    0 < normSq a := by
  induction a with
  | nil => simp at hx
  | cons y rest ih =>
    simp only [normSq, List.map_cons, List.sum_cons]
    rcases List.mem_cons.mp hx with h | h
    · subst h
      have h1 : 0 < x * x := mul_self_pos.mpr hne
      have h2 : 0 ≤ normSq rest := normSq_nonneg rest
      simp only [normSq] at h2
      linarith
    · have h1 := ih h
      simp only [normSq] at h1
      have h2 : 0 ≤ y * y := mul_self_nonneg y
      linarith

/-- C4: the cosine similarity function computes `dot(a,b) / (‖a‖ * ‖b‖)` for
every pair of same-length, nonempty, nonzero-norm vectors, and returns the
sentinel `-1.0` whenever either input vector is empty, the lengths differ, or
either vector has zero norm. -/
theorem claim_C4_cosine_formula (a b : List ℝ) :
    (a ≠ [] → b ≠ [] → a.length = b.length → normSq a ≠ 0 → normSq b ≠ 0 →
      cosine a b = dotP a b / (norm2 a * norm2 b))
    ∧ ((a = [] ∨ b = [] ∨ a.length ≠ b.length ∨ normSq a = 0 ∨ normSq b = 0) →
      cosine a b = -1) := by
  constructor
  · intro ha hb hlen hna hnb
    simp only [cosine, cosineAcc_eq a b hlen]
    rw [if_neg (by push_neg; exact ⟨ha, hb, hlen⟩)]
    rw [if_neg (by push_neg; exact ⟨hna, hnb⟩)]
    rfl
  · intro h
    by_cases hg : a = [] ∨ b = [] ∨ a.length ≠ b.length
    · simp only [cosine]
      rw [if_pos hg]
    · push_neg at hg
      obtain ⟨ha, hb, hlen⟩ := hg
      have hz : normSq a = 0 ∨ normSq b = 0 := by
        rcases h with h | h | h | h | h
        · exact absurd h ha
        · exact absurd h hb
        · exact absurd hlen h
        · exact Or.inl h
        · exact Or.inr h
      simp only [cosine, cosineAcc_eq a b hlen]
      rw [if_neg (by push_neg; exact ⟨ha, hb, hlen⟩)]
      rw [if_pos hz]

/-- Witness for C4 at `a = b = [1]`. -/
theorem claim_C4_witness :
    (([(1 : ℝ)] : List ℝ) ≠ [] ∧ normSq [(1 : ℝ)] ≠ 0) ∧
      cosine [(1 : ℝ)] [(1 : ℝ)] = dotP [(1 : ℝ)] [(1 : ℝ)] / (norm2 [(1 : ℝ)] * norm2 [(1 : ℝ)]) :=
  ⟨⟨by simp, by norm_num [normSq]⟩,
    (claim_C4_cosine_formula [(1 : ℝ)] [(1 : ℝ)]).1 (by simp) (by simp) rfl
      (by norm_num [normSq]) (by norm_num [normSq])⟩

/-- C5: cosine similarity is symmetric — `cosine(a,b) == cosine(b,a)` for every
pair of vectors — and `cosine(a,a) == 1.0` for every nonzero vector `a`. -/
theorem claim_C5_cosine_symm_self :
    (∀ a b : List ℝ, cosine a b = cosine b a) ∧
    (∀ a : List ℝ, (∃ x ∈ a, x ≠ 0) → cosine a a = 1) := by
  constructor
  · intro a b
    by_cases hg : a = [] ∨ b = [] ∨ a.length ≠ b.length
    · have hg' : b = [] ∨ a = [] ∨ b.length ≠ a.length := by
        rcases hg with h | h | h
        · exact Or.inr (Or.inl h)
        · exact Or.inl h
        · exact Or.inr (Or.inr (fun e => h e.symm))
      simp only [cosine]
      rw [if_pos hg, if_pos hg']
    · push_neg at hg
      obtain ⟨ha, hb, hlen⟩ := hg
      simp only [cosine, cosineAcc_eq a b hlen, cosineAcc_eq b a hlen.symm]
      rw [if_neg (by push_neg; exact ⟨ha, hb, hlen⟩)]
      by_cases hz : normSq a = 0 ∨ normSq b = 0
      · have hz' : normSq b = 0 ∨ normSq a = 0 := hz.symm
        rw [if_pos hz]
        rw [if_neg (by push_neg; exact ⟨hb, ha, hlen.symm⟩)]
        rw [if_pos hz']
      · have hz' : ¬ (normSq b = 0 ∨ normSq a = 0) := fun h => hz h.symm
        rw [if_neg hz]
        rw [if_neg (by push_neg; exact ⟨hb, ha, hlen.symm⟩)]
        rw [if_neg hz']
        rw [dotP_comm a b, mul_comm]
  · rintro a ⟨x, hx, hne⟩
    have ha : a ≠ [] := by rintro rfl; simp at hx
    have hpos := normSq_pos_of_mem hx hne
    simp only [cosine, cosineAcc_eq a a rfl]
    rw [if_neg (by push_neg; exact ⟨ha, ha, rfl⟩)]
    rw [if_neg (by push_neg; exact ⟨ne_of_gt hpos, ne_of_gt hpos⟩)]
    rw [dotP_self, Real.mul_self_sqrt (normSq_nonneg a), div_self (ne_of_gt hpos)]

/-- Witness for C5: self-similarity of the concrete nonzero vector `[2]`. -/
theorem claim_C5_witness :
    (∃ x ∈ ([(2 : ℝ)] : List ℝ), x ≠ 0) ∧ cosine [(2 : ℝ)] [(2 : ℝ)] = 1 :=
  ⟨⟨2, by simp, by norm_num⟩, claim_C5_cosine_symm_self.2 [(2 : ℝ)] ⟨2, by simp, by norm_num⟩⟩

/-! ## Sorting lemmas and the re-ranking claims C8, C10 -/

theorem sortByKeyDesc_perm {α K : Type} [LinearOrder K] (key : α → K) (l : List α) :
    (sortByKeyDesc key l).Perm l :=
  List.perm_insertionSort _ l

theorem sortByKeyDesc_sorted {α K : Type} [LinearOrder K] (key : α → K) (l : List α) :
    List.Sorted (fun x y => key y ≤ key x) (sortByKeyDesc key l) := by
  haveI : IsTotal α (fun x y => key y ≤ key x) := ⟨fun a b => le_total (key b) (key a)⟩
  haveI : IsTrans α (fun x y => key y ≤ key x) := ⟨fun a b c h1 h2 => le_trans h2 h1⟩
  exact List.sorted_insertionSort _ l

theorem sorted_map_snd_of_pairs {α K : Type} [LinearOrder K] (f : α → K)
    (pl : List (K × α)) (hmem : ∀ p ∈ pl, p.1 = f p.2)
    (hs : List.Sorted (fun x y => y.1 ≤ x.1) pl) :
    List.Sorted (fun x y => f y ≤ f x) (pl.map Prod.snd) := by
  rw [List.Sorted, List.pairwise_map]
  exact hs.imp_of_mem (fun ha hb h => by rw [← hmem _ ha, ← hmem _ hb]; exact h)

theorem rerank_eq_sort (l : List SearchRow) (b : Option String) (hne : ¬ l.isEmpty) :
    rerank l b =
      (sortByKeyDesc Prod.fst (l.map (fun r => (adjScore b r, r)))).map Prod.snd := by
  simp [rerank, hne]

/-- C10: `rerank_with_metadata_boost` returns a permutation of exactly the
same result records with every field unchanged — in particular each returned
record is one of the input records (so its `score` field still holds the base
score), and the `+0.02` building bonus influences ordering only. -/
theorem claim_C10_rerank_permutation (l : List SearchRow) (b : Option String) :
    (rerank l b).Perm l ∧ ∀ r ∈ rerank l b, r ∈ l := by
  have hperm : (rerank l b).Perm l := by
    by_cases hne : l.isEmpty
    · simp [rerank, hne]
    · rw [rerank_eq_sort l b hne]
      have h1 := (sortByKeyDesc_perm Prod.fst (l.map (fun r => (adjScore b r, r)))).map Prod.snd
      have h2 : (l.map (fun r => (adjScore b r, r))).map Prod.snd = l := by
        rw [List.map_map]
        simp [Function.comp_def]
      rw [h2] at h1
      exact h1
  exact ⟨hperm, fun r hr => hperm.mem_iff.mp hr⟩

/-- C8: re-ranking adds a fixed `+0.02` bonus to the effective score of every
result whose `building` metadata equals the requested building filter and
re-sorts descending by adjusted score; for two results with equal base score
where exactly one matches, every occurrence of the matching one ranks strictly
before every occurrence of the non-matching one. -/
theorem claim_C8_rerank_building_boost (l : List SearchRow) (b : String)
    (r1 r2 : SearchRow) (hb : b ≠ "")
    (hscore : r1.score.getD 0 = r2.score.getD 0)
    (h1 : r1.building = some b) (h2 : r2.building ≠ some b) :
    (∀ r : SearchRow, adjScore (some b) r =
      r.score.getD 0 + (if r.building = some b then 2 / 100 else 0)) ∧
    List.Sorted (fun x y => adjScore (some b) y ≤ adjScore (some b) x) (rerank l (some b)) ∧
    (∀ i j (hi : i < (rerank l (some b)).length) (hj : j < (rerank l (some b)).length),
      (rerank l (some b)).get ⟨i, hi⟩ = r2 → (rerank l (some b)).get ⟨j, hj⟩ = r1 → j < i) := by
  have hadj : ∀ r : SearchRow, adjScore (some b) r =
      r.score.getD 0 + (if r.building = some b then 2 / 100 else 0) := by
    intro r
    simp only [adjScore, strTruthy]
    congr 1
    by_cases hr : r.building = some b
    · rw [if_pos ⟨by simpa using hb, hr⟩, if_pos hr]
    · rw [if_neg (by intro hc; exact hr hc.2), if_neg hr]
  have hsorted : List.Sorted (fun x y => adjScore (some b) y ≤ adjScore (some b) x)
      (rerank l (some b)) := by
    by_cases hne : l.isEmpty
    · have : l = [] := List.isEmpty_iff.mp hne
      simp [rerank, hne, this]
    · rw [rerank_eq_sort l (some b) hne]
      apply sorted_map_snd_of_pairs
      · intro p hp
        have := (sortByKeyDesc_perm Prod.fst (l.map (fun r => (adjScore (some b) r, r)))).mem_iff.mp hp
        obtain ⟨r, _, rfl⟩ := List.mem_map.mp this
        rfl
      · exact sortByKeyDesc_sorted Prod.fst _
  refine ⟨hadj, hsorted, ?_⟩
  intro i j hi hj hgi hgj
  have hlt : adjScore (some b) r2 < adjScore (some b) r1 := by
    rw [hadj r1, hadj r2, if_pos h1, if_neg h2, hscore]
    norm_num
  have hne12 : r1 ≠ r2 := by
    intro he
    rw [he] at h1
    exact h2 h1
  rcases lt_trichotomy i j with h | h | h
  · exfalso
    have := (List.pairwise_iff_get.mp hsorted) ⟨i, hi⟩ ⟨j, hj⟩ h
    rw [hgi, hgj] at this
    exact absurd (lt_of_lt_of_le hlt this) (lt_irrefl _)
  · exfalso
    subst h
    apply hne12
    rw [← hgj, ← hgi]
  · exact h

/-- Concrete input rows used by the C8 witness: equal base score `1`, one in
building `HQ` and one in building `X`. -/
def demoRowA : SearchRow :=
  { id := some "a", score := some 1, building := some "HQ", shot_ymd := Option.none, extra := [] }

/-- Second concrete row for the C8 witness. -/
def demoRowB : SearchRow :=
  { id := some "b", score := some 1, building := some "X", shot_ymd := Option.none, extra := [] }

/-- Witness for C8 at the concrete two-element result list `[demoRowB, demoRowA]`. -/
theorem claim_C8_witness :
    (("HQ" : String) ≠ "" ∧ demoRowA.score.getD 0 = demoRowB.score.getD 0 ∧
      demoRowA.building = some "HQ" ∧ demoRowB.building ≠ some "HQ") ∧
    ((∀ r : SearchRow, adjScore (some "HQ") r =
        r.score.getD 0 + (if r.building = some "HQ" then 2 / 100 else 0)) ∧
      List.Sorted (fun x y => adjScore (some "HQ") y ≤ adjScore (some "HQ") x)
        (rerank [demoRowB, demoRowA] (some "HQ")) ∧
      (∀ i j (hi : i < (rerank [demoRowB, demoRowA] (some "HQ")).length)
          (hj : j < (rerank [demoRowB, demoRowA] (some "HQ")).length),
        (rerank [demoRowB, demoRowA] (some "HQ")).get ⟨i, hi⟩ = demoRowB →
        (rerank [demoRowB, demoRowA] (some "HQ")).get ⟨j, hj⟩ = demoRowA → j < i)) :=
  ⟨⟨by decide, by decide, by decide, by decide⟩,
    claim_C8_rerank_building_boost [demoRowB, demoRowA] "HQ" demoRowA demoRowB
      (by decide) (by decide) (by decide) (by decide)⟩

/-! ## Claim C1: dimension validation before transport I/O -/

/-- C1 (code-bug exhibit): at the failing input — a vector of length 1 against
a store configured with `dim = 1536` — `S3VectorStore.upsert`/`search` raise
the dimension mismatch with zero transport calls, but the OpenSearch-backed
`VectorStore.upsert` and `VectorStore.search` perform no dimension check at
all: they hand the mismatched vector straight to the transport client and
raise nothing, contradicting the claim for that backend variant. -/
theorem claim_C1_dimension_check_bug :
    (s3Upsert 1536 "x" [(1 : ℚ)] ⟨Option.none, Option.none, []⟩ =
      (.error (.dimMismatch 1 1536), [])) ∧
    (s3Search 1536 [(1 : ℚ)] [] Option.none Option.none 10 =
      (.error (.dimMismatch 1 1536), [])) ∧
    (osUpsert 1536 "x" [(1 : ℚ)] ⟨Option.none, Option.none, []⟩ =
      (.ok (), [.osIndex "x" [(1 : ℚ)] ⟨Option.none, Option.none, []⟩])) ∧
    (osSearchInvoke 1536 [(1 : ℚ)] [] = (.ok [], [.osSearchReq [(1 : ℚ)]])) := by
  refine ⟨?_, ?_, rfl, rfl⟩
  · simp [s3Upsert]
  · simp [s3Search]

/-! ## Claim C7: inclusive date-range boundary -/

/-- C7: the date-range filter is an inclusive integer range on `shot_ymd`.
On the S3 vector-mode path, a record with `shot_ymd = 20240615` is returned
when `date_from = date_to = "2024-06-15"` and filtered out when
`date_to = "2024-06-14"`; on the OpenSearch path the same date strings are
translated to inclusive `gte`/`lte` bounds with the same effect. -/
theorem claim_C7_date_boundary :
    (s3VectorModeResults
        [⟨some "r1", some ⟨Option.none, some 20240615, []⟩, some 0⟩]
        (some "2024-06-15") (some "2024-06-15") 10 =
      [{ id := some "r1", score := some 1, building := Option.none,
         shot_ymd := some 20240615, extra := [] }]) ∧
    (s3VectorModeResults
        [⟨some "r1", some ⟨Option.none, some 20240615, []⟩, some 0⟩]
        Option.none (some "2024-06-14") 10 = []) ∧
    (osRangeClause (some "2024-06-15") (some "2024-06-15") =
        some (some 20240615, some 20240615) ∧
      rangeClauseMatches (osRangeClause (some "2024-06-15") (some "2024-06-15"))
        20240615 = true) ∧
    (osRangeClause Option.none (some "2024-06-14") = some (Option.none, some 20240614) ∧
      rangeClauseMatches (osRangeClause Option.none (some "2024-06-14"))
        20240615 = false) := by
  have hin : passesDateFilter (some "2024-06-15") (some "2024-06-15") (some 20240615) = true := by
    decide
  have hout : passesDateFilter Option.none (some "2024-06-14") (some 20240615) = false := by
    decide
  refine ⟨?_, ?_, ⟨by decide, by decide⟩, ⟨by decide, by decide⟩⟩
  · simp [s3VectorModeResults, s3RowOfEntry, hin, sortByKeyDesc, List.insertionSort]
  · simp [s3VectorModeResults, s3RowOfEntry, hout, sortByKeyDesc, List.insertionSort]

/-! ## Claim C9: idempotence of deleteIds -/

theorem chunksBy_of_le {α : Type} (n : ℕ) (l : List α) (hne : l ≠ [])
    (hlen : l.length ≤ n) (hn : n ≠ 0) : chunksBy n l = [l] := by
  cases l with
  | nil => exact absurd rfl hne
  | cons x rest =>
    rw [chunksBy]
    rw [if_neg hn]
    rw [List.take_of_length_le hlen, List.drop_eq_nil_of_le hlen]
    rw [chunksBy]

/-- C9 (code-bug exhibit): deleting a list containing an absent id. The S3
variants remove the present ids, ignore the absent ones, raise nothing, and
leave the store in the same state as deleting only the present ids — but the
OpenSearch-backed `VectorStore.delete_ids` calls `client.delete` per id with
no `ignore=[404]`, so the first absent id raises `NotFoundError`,
contradicting "deleting absent ids is not an error" for that variant. -/
theorem claim_C9_delete_absent_bug :
    (osDeleteIds ["x"] ["x", "ghost"] = .error .notFound) ∧
    (osDeleteIds [] ["ghost"] = .error .notFound) ∧
    (s3vDeleteIds ["x"] ["x", "ghost"] = [] ∧
      s3vDeleteIds ["x"] ["x", "ghost"] = s3vDeleteIds ["x"] ["x"] ∧
      s3vDeleteIds ["x"] ["ghost"] = ["x"]) ∧
    (s3LegacyDeleteIds "vectors" "images"
        [keyForId "vectors" "images" "x"] ["x", "ghost"] = []) := by
  have h2 : chunksBy 500 ["x", "ghost"] = [["x", "ghost"]] :=
    chunksBy_of_le 500 _ (by simp) (by simp) (by simp)
  have h1 : chunksBy 500 ["x"] = [["x"]] :=
    chunksBy_of_le 500 _ (by simp) (by simp) (by simp)
  have h3 : chunksBy 500 ["ghost"] = [["ghost"]] :=
    chunksBy_of_le 500 _ (by simp) (by simp) (by simp)
  have h4 : chunksBy 1000 (["x", "ghost"].map (keyForId "vectors" "images")) =
      [["x", "ghost"].map (keyForId "vectors" "images")] :=
    chunksBy_of_le 1000 _ (by simp) (by simp) (by simp)
  refine ⟨rfl, rfl, ⟨?_, ?_, ?_⟩, ?_⟩
  · simp only [s3vDeleteIds, h2]
    decide
  · simp only [s3vDeleteIds, h2, h1]
    decide
  · simp only [s3vDeleteIds, h3]
    decide
  · simp only [s3LegacyDeleteIds, h4]
    simp [keyForId]

/-! ## Claim C2: response-shape extraction -/

/-- Unfolding lemma for `extractEmbedding` on a dict, with the body match
stated without the dependent hypothesis. -/
theorem extractEmbedding_dict (fs : List (String × PyVal)) :
    extractEmbedding (.dict fs) =
      match (List.lookup "embedding" fs).bind asNumVec with
      | some v => some v
      | Option.none =>
        match bodyField fs with
        | some (.str (some inner)) => extractEmbedding inner
        | _ => Option.none := by
  rcases h1 : (List.lookup "embedding" fs).bind asNumVec with _ | v
  · rcases h2 : bodyField fs with _ | w
    · simp [extractEmbedding, h1, h2]
    · cases w
      case str p =>
        cases p
        · simp [extractEmbedding, h1, h2]
        · simp only [extractEmbedding, h1]
          split
          all_goals simp_all
      all_goals simp [extractEmbedding, h1, h2]
  · simp [extractEmbedding, h1]

/-- Unfolding lemma for `extractFromItems` on a cons, with the body match
stated without the dependent hypothesis. -/
theorem extractFromItems_cons (item : PyVal) (rest : List PyVal) :
    extractFromItems (item :: rest) =
      match item with
      | .dict fs =>
        match (List.lookup "embedding" fs).bind asNumVec with
        | some v => some v
        | Option.none =>
          match bodyField fs with
          | some (.str (some inner)) =>
            match extractEmbedding inner with
            | some v => some v
            | Option.none => extractFromItems rest
          | _ => extractFromItems rest
      | .str (some inner) =>
        match extractEmbedding inner with
        | some v => some v
        | Option.none => extractFromItems rest
      | _ => extractFromItems rest := by
  cases item
  case dict fs =>
    rcases h1 : (List.lookup "embedding" fs).bind asNumVec with _ | v
    · rcases h2 : bodyField fs with _ | w
      · simp [extractFromItems, h1, h2]
      · cases w
        case str p =>
          cases p
          · simp [extractFromItems, h1, h2]
          · simp only [extractFromItems, h1]
            split
            all_goals simp_all
        all_goals simp [extractFromItems, h1, h2]
    · simp [extractFromItems, h1]
  case str p =>
    cases p
    all_goals simp [extractFromItems]
  all_goals simp [extractFromItems]

/-- C2 counterexample: the payload `{"embedding": ["x"]}` — a string inside
the `embedding` list — contains no valid numeric vector anywhere and the
extractor yields `None`, yet the realtime call does not fail: the fallback
`… or body.get('embedding')` returns the non-numeric list unchanged instead
of raising the malformed-response error. -/
theorem claim_C2_counterexample :
    extractEmbedding (.dict [("embedding", .list [.str Option.none])]) = Option.none ∧
    handleRealtimeBody (.dict [("embedding", .list [.str Option.none])]) =
      .ok (.list [.str Option.none]) := by
  have hx : extractEmbedding (.dict [("embedding", .list [.str Option.none])]) =
      Option.none := by
    rw [extractEmbedding_dict]
    simp [asNumVec, isNum, bodyField, List.lookup]
  exact ⟨hx, by simp [handleRealtimeBody, hx]⟩

/-- Unfolding lemma for `extractEmbedding` on a list. -/
theorem extractEmbedding_list (xs : List PyVal) :
    extractEmbedding (.list xs) =
      if !xs.isEmpty && xs.all isNum then some (xs.map toFloat)
      else extractFromItems xs := by
  simp [extractEmbedding]

/-- A top-level string is never parsed: extraction yields `None`. -/
theorem extractEmbedding_str (p : Option PyVal) :
    extractEmbedding (.str p) = Option.none := by
  simp [extractEmbedding]

/-- Extraction of a bare number yields `None`. -/
theorem extractEmbedding_num (x : ℚ) : extractEmbedding (.num x) = Option.none := by
  simp [extractEmbedding]

/-- Extraction of a bare boolean yields `None`. -/
theorem extractEmbedding_bool (b : Bool) : extractEmbedding (.bool b) = Option.none := by
  simp [extractEmbedding]

/-- Extraction of `None` yields `None`. -/
theorem extractEmbedding_pynone : extractEmbedding PyVal.none = Option.none := by
  simp [extractEmbedding]

/-- C2 (amended): the extractor tries the documented envelope shapes — direct
`embedding` key, bare numeric list, list of objects (first valid `embedding`
wins, with string-typed `body`/`Body` contents parsed and retried per
candidate) — and each of the four documented shapes wrapping the same
nonempty numeric vector extracts to that identical vector, the direct
`embedding` key taking precedence over a `body` envelope. When the extractor
finds no valid vector, the realtime embedding call raises an error (the
malformed-response `RuntimeError`, or an `AttributeError` when the payload is
not an object) and never returns a default or zero vector — **except** when
the top-level payload is a dict whose `embedding` value is a (necessarily
non-numeric) list, which is returned unchanged. -/
theorem claim_C2_extraction_amended :
    (∀ v : List ℚ, v ≠ [] →
      extractEmbedding (.dict [("embedding", .list (v.map PyVal.num))]) = some v ∧
      extractEmbedding (.list (v.map PyVal.num)) = some v ∧
      extractEmbedding (.list [.dict [("embedding", .list (v.map PyVal.num))]]) = some v ∧
      extractEmbedding
        (.dict [("body", .str (some (.dict [("embedding", .list (v.map PyVal.num))])))]) =
        some v) ∧
    (∀ v w : List ℚ,
      extractEmbedding (.dict [("embedding", .list (v.map PyVal.num)),
          ("body", .str (some (.dict [("embedding", .list (w.map PyVal.num))])))]) = some v ∧
      extractEmbedding (.list [.dict [("embedding", .list (v.map PyVal.num))],
          .dict [("embedding", .list (w.map PyVal.num))]]) = some v) ∧
    (∀ body : PyVal, extractEmbedding body = Option.none →
      handleRealtimeBody body = .malformedError ∨ handleRealtimeBody body = .attrError ∨
      (∃ fs xs, body = .dict fs ∧ List.lookup "embedding" fs = some (.list xs) ∧
        handleRealtimeBody body = .ok (.list xs))) := by
  have hall : ∀ v : List ℚ, (v.map PyVal.num).all isNum = true := by
    intro v
    simp [List.all_map, Function.comp_def, isNum]
  have hmap : ∀ v : List ℚ, (v.map PyVal.num).map toFloat = v := by
    intro v
    rw [List.map_map]
    simp [Function.comp_def, toFloat]
  refine ⟨?_, ?_, ?_⟩
  · intro v hv
    have hne : (v.map PyVal.num).isEmpty = false := by
      cases v with
      | nil => exact absurd rfl hv
      | cons x rest => simp
    have h1 : extractEmbedding (.dict [("embedding", .list (v.map PyVal.num))]) = some v := by
      rw [extractEmbedding_dict]
      simp [List.lookup, asNumVec, isNum, hall, hmap]
    refine ⟨h1, ?_, ?_, ?_⟩
    · rw [extractEmbedding_list]
      simp [hne, isNum, hall, hmap]
    · rw [extractEmbedding_list, extractFromItems_cons]
      simp [List.lookup, asNumVec, isNum, hall, hmap]
    · rw [extractEmbedding_dict]
      simp [List.lookup, bodyField, pyTruthy, h1]
  · intro v w
    constructor
    · rw [extractEmbedding_dict]
      simp [List.lookup, asNumVec, isNum, hall, hmap]
    · rw [extractEmbedding_list, extractFromItems_cons]
      simp [List.lookup, asNumVec, isNum, hall, hmap]
  · intro body hnone
    cases body with
    | dict fs =>
      cases hlk : List.lookup "embedding" fs with
      | none =>
        left
        simp [handleRealtimeBody, hnone, hlk]
      | some v =>
        cases v with
        | list xs =>
          right; right
          exact ⟨fs, xs, rfl, hlk, by simp [handleRealtimeBody, hnone, hlk]⟩
        | num x => left; simp [handleRealtimeBody, hnone, hlk]
        | bool b => left; simp [handleRealtimeBody, hnone, hlk]
        | str p => left; simp [handleRealtimeBody, hnone, hlk]
        | dict fs2 => left; simp [handleRealtimeBody, hnone, hlk]
        | none => left; simp [handleRealtimeBody, hnone, hlk]
    | num x => right; left; simp [handleRealtimeBody, hnone]
    | bool b => right; left; simp [handleRealtimeBody, hnone]
    | str p => right; left; simp [handleRealtimeBody, hnone]
    | list xs => right; left; simp [handleRealtimeBody, hnone]
    | none => right; left; simp [handleRealtimeBody, hnone]

/-- Witness for C2 (amended) at the vector `[3]` and the payload `None`. -/
theorem claim_C2_witness :
    (([(3 : ℚ)] : List ℚ) ≠ [] ∧
      extractEmbedding (.dict [("embedding", .list ([(3 : ℚ)].map PyVal.num))]) = some [3]) ∧
    (extractEmbedding PyVal.none = Option.none ∧
      (handleRealtimeBody PyVal.none = .malformedError ∨
        handleRealtimeBody PyVal.none = .attrError ∨
        (∃ fs xs, PyVal.none = .dict fs ∧ List.lookup "embedding" fs = some (.list xs) ∧
          handleRealtimeBody PyVal.none = .ok (.list xs)))) :=
  ⟨⟨by simp, ((claim_C2_extraction_amended.1 [(3 : ℚ)] (by simp)).1)⟩,
    ⟨extractEmbedding_pynone,
      claim_C2_extraction_amended.2.2 PyVal.none extractEmbedding_pynone⟩⟩

/-! ## Claim C3: async polling -/

theorem pollLoop_allNoSuchKey (poll : ℕ → PollOutcome) (deadline : ℕ)
    (hp : ∀ s, poll s = .noSuchKey) :
    ∀ t le, pollLoop poll deadline t le =
      .error (le.getD "Timed out waiting for async output") := by
  have aux : ∀ fuel t le, deadline - t ≤ fuel →
      pollLoop poll deadline t le =
        .error (le.getD "Timed out waiting for async output") := by
    intro fuel
    induction fuel with
    | zero =>
      intro t le hle
      rw [pollLoop, if_neg (by omega)]
    | succ n ih =>
      intro t le hle
      by_cases ht : t < deadline
      · rw [pollLoop, if_pos ht, hp t]
        exact ih (t + 2) le (by omega)
      · rw [pollLoop, if_neg ht]
  exact fun t le => aux (deadline - t) t le le_rfl

theorem pollLoop_success (poll : ℕ → PollOutcome) (deadline : ℕ) (d : PyVal)
    (v : List ℚ) (hd : extractEmbedding d = some v) :
    ∀ n t le, (∀ k, k < n → poll (t + 2 * k) = .noSuchKey) →
      poll (t + 2 * n) = .payload d → t + 2 * n < deadline →
      pollLoop poll deadline t le = .ok v := by
  intro n
  induction n with
  | zero =>
    intro t le hk hp hlt
    have hp' : poll t = .payload d := by simpa using hp
    rw [pollLoop, if_pos (by omega : t < deadline)]
    simp [hp', hd]
  | succ n ih =>
    intro t le hk hp hlt
    have h0 : poll t = .noSuchKey := by simpa using hk 0 (by omega)
    rw [pollLoop, if_pos (by omega : t < deadline)]
    simp only [h0]
    refine ih (t + 2) le ?_ ?_ (by omega)
    · intro k hk2
      have := hk (k + 1) (by omega)
      rw [show t + 2 * (k + 1) = t + 2 + 2 * k from by ring] at this
      exact this
    · rw [show t + 2 + 2 * n = t + 2 * (n + 1) from by ring]
      exact hp

theorem pollLoop_congr (poll poll2 : ℕ → PollOutcome) (deadline : ℕ)
    (hagree : ∀ s, s < deadline → poll s = poll2 s) :
    ∀ t le, pollLoop poll deadline t le = pollLoop poll2 deadline t le := by
  have aux : ∀ fuel t le, deadline - t ≤ fuel →
      pollLoop poll deadline t le = pollLoop poll2 deadline t le := by
    intro fuel
    induction fuel with
    | zero =>
      intro t le hle
      rw [pollLoop, if_neg (by omega), pollLoop, if_neg (by omega)]
    | succ n ih =>
      intro t le hle
      by_cases ht : t < deadline
      · conv_lhs => rw [pollLoop]
        conv_rhs => rw [pollLoop]
        rw [if_pos ht, if_pos ht, hagree t ht]
        cases hpt : poll2 t with
        | noSuchKey => exact ih (t + 2) le (by omega)
        | failure m => exact ih (t + 2) (some m) (by omega)
        | payload d =>
          cases hed : extractEmbedding d with
          | some v => simp [hed]
          | none =>
            simp only [hed]
            exact ih (t + 2) _ (by omega)
      · conv_lhs => rw [pollLoop]
        conv_rhs => rw [pollLoop]
        rw [if_neg ht, if_neg ht]
  exact fun t le => aux (deadline - t) t le le_rfl

theorem pollLoop_allFailure (poll : ℕ → PollOutcome) (deadline : ℕ) (m : String)
    (hp : ∀ s, poll s = .failure m) :
    ∀ t, t < deadline → pollLoop poll deadline t Option.none = .error m := by
  have aux : ∀ fuel t, deadline - t ≤ fuel →
      pollLoop poll deadline t (some m) = .error m := by
    intro fuel
    induction fuel with
    | zero =>
      intro t hle
      rw [pollLoop, if_neg (by omega)]
      rfl
    | succ n ih =>
      intro t hle
      by_cases ht : t < deadline
      · rw [pollLoop, if_pos ht, hp t]
        exact ih (t + 2) (by omega)
      · rw [pollLoop, if_neg ht]
        rfl
  intro t ht
  rw [pollLoop, if_pos ht, hp t]
  exact aux (deadline - (t + 2)) (t + 2) le_rfl

/-- C3: in the async embedding path, an absent output object is treated as
not-ready and retried on the fixed 2-second interval; a well-formed result
appearing before the deadline makes the call return exactly the vector
extracted from that final payload; a backend that never becomes ready makes
the call fail at the deadline with a timeout error carrying the last observed
error (or the default timeout message when none was observed); and the loop
never consults the backend at any time at or past the deadline. The default
deadline is 150 seconds. -/
theorem claim_C3_async_polling :
    (∀ (poll : ℕ → PollOutcome) (t0 T : ℕ),
      (∀ t, poll t = .noSuchKey) →
      asyncInvoke poll T t0 = .error "Timed out waiting for async output") ∧
    (∀ (poll : ℕ → PollOutcome) (t0 T n : ℕ) (d : PyVal) (v : List ℚ),
      (∀ k, k < n → poll (t0 + 2 * k) = .noSuchKey) →
      poll (t0 + 2 * n) = .payload d →
      extractEmbedding d = some v →
      t0 + 2 * n < t0 + T →
      asyncInvoke poll T t0 = .ok v) ∧
    (∀ (poll : ℕ → PollOutcome) (t0 T : ℕ) (m : String),
      (∀ t, poll t = .failure m) → 0 < T →
      asyncInvoke poll T t0 = .error m) ∧
    (∀ (poll poll2 : ℕ → PollOutcome) (t0 T : ℕ),
      (∀ s, s < t0 + T → poll s = poll2 s) →
      asyncInvoke poll T t0 = asyncInvoke poll2 T t0) ∧
    asyncTimeoutDefault = 150 := by
  refine ⟨?_, ?_, ?_, ?_, rfl⟩
  · intro poll t0 T hp
    exact pollLoop_allNoSuchKey poll (t0 + T) hp t0 Option.none
  · intro poll t0 T n d v hk hp hd hlt
    exact pollLoop_success poll (t0 + T) d v hd n t0 Option.none hk hp hlt
  · intro poll t0 T m hp hT
    exact pollLoop_allFailure poll (t0 + T) m hp t0 (by omega)
  · intro poll poll2 t0 T hagree
    exact pollLoop_congr poll poll2 (t0 + T) hagree t0 Option.none

/-- Witness for C3: a backend that is never ready times out with the default
message; a backend that is not ready for one poll and then serves
`{[5]}` returns `[5]`; a backend that always fails with `boom` times out
carrying `boom`. -/
theorem claim_C3_witness :
    (asyncInvoke (fun _ => PollOutcome.noSuchKey) 4 0 =
      .error "Timed out waiting for async output") ∧
    ((∀ k, k < 1 → (fun t => if t < 2 then PollOutcome.noSuchKey
        else PollOutcome.payload (.list [.num 5])) (0 + 2 * k) = PollOutcome.noSuchKey) ∧
      extractEmbedding (.list [.num 5]) = some [(5 : ℚ)] ∧
      asyncInvoke (fun t => if t < 2 then PollOutcome.noSuchKey
        else PollOutcome.payload (.list [.num 5])) 10 0 = .ok [(5 : ℚ)]) ∧
    (asyncInvoke (fun _ => PollOutcome.failure "boom") 2 0 = .error "boom") := by
  have hd : extractEmbedding (.list [.num 5]) = some ([(5 : ℚ)]) := by
    rw [extractEmbedding_list]
    simp [isNum, toFloat]
  refine ⟨?_, ⟨?_, hd, ?_⟩, ?_⟩
  · exact claim_C3_async_polling.1 (fun _ => .noSuchKey) 0 4 (fun _ => rfl)
  · intro k hk
    have hk0 : k = 0 := by omega
    subst hk0
    rfl
  · exact claim_C3_async_polling.2.1 _ 0 10 1 (.list [.num 5]) [(5 : ℚ)]
      (fun k hk => by
        have hk0 : k = 0 := by omega
        subst hk0
        rfl)
      rfl hd (by omega)
  · exact claim_C3_async_polling.2.2.1 _ 0 2 "boom" (fun _ => rfl) (by omega)

/-! ## Claim C6: search result ordering and truncation -/

/-- C6: for every query vector of the configured dimension and every positive
`top_k`, search returns a list ordered by descending score whose length is at
most `top_k`, on every backend variant: unconditionally on the two
`S3VectorStore.search` paths (which re-sort and truncate client-side), and on
the OpenSearch-backed `VectorStore.search` whenever the engine honours its
contract of returning at most `size = top_k` hits sorted by `_score`
descending (that path forwards the hit list as-is). -/
theorem claim_C6_search_sorted_bounded :
    (∀ (dim : ℕ) (q : List ℚ) (resp : List QVecEntry) (df dt : Option String) (k : ℤ),
      q.length = dim → 0 < k →
      s3Search dim q resp df dt k =
        (.ok (s3VectorModeResults resp df dt k), [.queryVectors q]) ∧
      List.Sorted (fun x y => scoreKey y ≤ scoreKey x) (s3VectorModeResults resp df dt k) ∧
      (s3VectorModeResults resp df dt k).length ≤ k.toNat) ∧
    (∀ (dim : ℕ) (q : List ℝ) (docs : List LegacyDoc) (b df dt : Option String) (k : ℤ),
      0 < k →
      List.Sorted (fun x y => LegacyRow.score y ≤ LegacyRow.score x)
        (s3LegacyResults dim q docs b df dt k) ∧
      (s3LegacyResults dim q docs b df dt k).length ≤ k.toNat) ∧
    (∀ (dim : ℕ) (q : List ℚ) (hits : List OSHit) (k : ℕ),
      List.Sorted (fun x y => y.score.getD 0 ≤ x.score.getD 0) hits →
      hits.length ≤ k →
      osSearchInvoke dim q hits = (.ok (osSearchResults hits), [.osSearchReq q]) ∧
      List.Sorted (fun x y => scoreKey y ≤ scoreKey x) (osSearchResults hits) ∧
      (osSearchResults hits).length ≤ k) := by
  refine ⟨?_, ?_, ?_⟩
  · intro dim q resp df dt k hlen hk
    refine ⟨?_, ?_, ?_⟩
    · unfold s3Search
      rw [if_neg (by simp [hlen])]
    · exact List.Pairwise.sublist (List.take_sublist _ _) (sortByKeyDesc_sorted scoreKey _)
    · calc (s3VectorModeResults resp df dt k).length
          ≤ (max 1 k).toNat := List.length_take_le _ _
        _ ≤ k.toNat := by omega
  · intro dim q docs b df dt k hk
    refine ⟨?_, ?_⟩
    · exact List.Pairwise.sublist (List.take_sublist _ _)
        (sortByKeyDesc_sorted LegacyRow.score _)
    · calc (s3LegacyResults dim q docs b df dt k).length
          ≤ (max 1 k).toNat := List.length_take_le _ _
        _ ≤ k.toNat := by omega
  · intro dim q hits k hsorted hlen
    refine ⟨rfl, ?_, ?_⟩
    · rw [osSearchResults, List.Sorted, List.pairwise_map]
      exact hsorted.imp (fun h => by simpa [scoreKey, osRowOfHit] using h)
    · simpa [osSearchResults] using hlen

/-- Witness for C6 on concrete inputs: a dimension-2 query with an empty
service response, an empty legacy document store, and two OpenSearch hits
already sorted by score. -/
theorem claim_C6_witness :
    ((([(1 : ℚ), 2] : List ℚ).length = 2 ∧ (0 : ℤ) < 5) ∧
      s3Search 2 [(1 : ℚ), 2] [] Option.none Option.none 5 =
        (.ok (s3VectorModeResults [] Option.none Option.none 5),
          [.queryVectors [(1 : ℚ), 2]]) ∧
      List.Sorted (fun x y => scoreKey y ≤ scoreKey x)
        (s3VectorModeResults [] Option.none Option.none 5) ∧
      (s3VectorModeResults [] Option.none Option.none 5).length ≤ (5 : ℤ).toNat) ∧
    (List.Sorted (fun x y => LegacyRow.score y ≤ LegacyRow.score x)
        (s3LegacyResults 2 [(1 : ℝ), 2] [] Option.none Option.none Option.none 3) ∧
      (s3LegacyResults 2 [(1 : ℝ), 2] [] Option.none Option.none Option.none 3).length ≤
        (3 : ℤ).toNat) ∧
    (List.Sorted (fun x y : OSHit => y.score.getD 0 ≤ x.score.getD 0)
        [⟨some "a", some 2, ⟨Option.none, Option.none, Option.none, []⟩⟩,
         ⟨some "b", some 1, ⟨Option.none, Option.none, Option.none, []⟩⟩] ∧
      List.Sorted (fun x y => scoreKey y ≤ scoreKey x)
        (osSearchResults
          [⟨some "a", some 2, ⟨Option.none, Option.none, Option.none, []⟩⟩,
           ⟨some "b", some 1, ⟨Option.none, Option.none, Option.none, []⟩⟩]) ∧
      (osSearchResults
          [⟨some "a", some 2, ⟨Option.none, Option.none, Option.none, []⟩⟩,
           ⟨some "b", some 1, ⟨Option.none, Option.none, Option.none, []⟩⟩]).length ≤ 2) := by
  have hs : List.Sorted (fun x y : OSHit => y.score.getD 0 ≤ x.score.getD 0)
      [⟨some "a", some 2, ⟨Option.none, Option.none, Option.none, []⟩⟩,
       ⟨some "b", some 1, ⟨Option.none, Option.none, Option.none, []⟩⟩] := by
    simp [List.Sorted]
  refine ⟨⟨⟨rfl, by decide⟩, ?_⟩, ?_, ⟨hs, ?_, ?_⟩⟩
  · exact (claim_C6_search_sorted_bounded.1 2 [(1 : ℚ), 2] [] Option.none Option.none 5
      rfl (by decide))
  · exact claim_C6_search_sorted_bounded.2.1 2 [(1 : ℝ), 2] [] Option.none Option.none
      Option.none 3 (by decide)
  · exact (claim_C6_search_sorted_bounded.2.2 2 [(1 : ℚ), 2] _ 2 hs (by decide)).2.1
  · exact (claim_C6_search_sorted_bounded.2.2 2 [(1 : ℚ), 2] _ 2 hs (by decide)).2.2
